import Mathlib

/-!
Shallow embedding of the `loco_sim` message broker (`sim_broker.py`).

Bytes are modelled as `List Nat`, the printable-safe hex transport encoding
as a nibble-level encoding (`encodeHex` / `decodeHex`), and the broker's
per-connection handling of the Submit Listener (`Broker._msgreceiver`,
lines 122-143), the Fetch Listener (`Broker._fetchwatcher`, lines 165-181),
the Queue Parser (`Broker._queueparser`, stub body, lines 186-194) and the
lifecycle (`Broker.__init__` / `Broker.start` / `Broker.stop`) as explicit
state-passing functions producing the new broker state together with the
ordered list of observable events (replies sent, enqueues, pops, closes).

The classes `Message` and `MsgQueue` come from `msg_lib`, which is not part
of the available sources; they are modelled from the spec where noted.
-/

namespace LocoSim

/-- Configuration values read from `conf.dat` (not part of the sources):
the maximum frame size `MAX_MSG_SIZE` and the message time-to-live. -/
structure Cfg where
  max_msg_size : Nat
  ttl : Nat
deriving Repr, DecidableEq

/-- Hex transport encoding at the nibble level: each byte `b < 256` becomes
the two hex digits `[b / 16, b % 16]`. Models Python's `s.encode('hex')`
used by `Broker._fetchwatcher` (line 178). -/
def encodeHex (bs : List Nat) : List Nat :=
  bs.flatMap (fun b => [b / 16, b % 16])

/-- Inverse of the hex transport encoding: pairs of hex digits back into
bytes, failing on an odd-length input or an out-of-range digit. Models
Python's `s.decode('hex')` used by `Broker._msgreceiver` (line 125). -/
def decodeHex : List Nat → Option (List Nat)
  | [] => some []
  | [_] => none
  | h :: l :: rest =>
    if h < 16 ∧ l < 16 then (decodeHex rest).map (fun bs => (h * 16 + l) :: bs)
    else none

/-- Modelled from the spec: the `Message` entity of `msg_lib` (not in the
available sources). Field names follow the attributes the broker reads:
`dest_addr`, `sender_addr`, `raw_msg`; `created_at` is the receipt
timestamp assigned by the broker, used for TTL computation; `raw_msg` is
the exact wire-encoded byte sequence received (binary frame, after undoing
the hex transport encoding). -/
structure Message where
  msg_type : Nat
  sender_addr : List Nat
  dest_addr : List Nat
  payload : List Nat
  created_at : Nat
  raw_msg : List Nat
deriving Repr, DecidableEq

/-- Modelled from the spec: `Message` decoding in `msg_lib` (not in the
available sources). Parses a fixed-layout header — protocol version,
message type, length-prefixed sender address, length-prefixed destination
address, payload length — followed by the payload, and fails when the
actual byte count disagrees with the declared payload length or a header
field is missing. `t` is the receipt timestamp; `raw_msg` keeps the whole
frame unchanged. -/
def decodeMessage (t : Nat) (frame : List Nat) : Option Message :=
  match frame with
  | _ver :: mtype :: slen :: rest =>
    if slen ≤ rest.length then
      match rest.drop slen with
      | dlen :: rest2 =>
        if dlen ≤ rest2.length then
          match rest2.drop dlen with
          | plen :: payload =>
            if payload.length = plen then
              some ⟨mtype, rest.take slen, rest2.take dlen, payload, t, frame⟩
            else none
          | [] => none
        else none
      | [] => none
    else none
  | _ => none

/-- The broker state: the dict of outgoing message queues keyed by
destination address (`Broker.outgoing_queues`, an insertion-ordered
association list, queues being FIFO lists front-first), and the `running`
flag. From `Broker.__init__` (lines 49-68). -/
structure BrokerState where
  outgoing_queues : List (List Nat × List Message)
  running : Bool
deriving Repr, DecidableEq

/-- Dict lookup on the queue store. -/
def qlookup (qs : List (List Nat × List Message)) (k : List Nat) :
    Option (List Message) :=
  match qs with
  | [] => none
  | (k', v) :: t => if k' = k then some v else qlookup t k

/-- Dict update on the queue store: replaces the value in place when the
key is present, appends the new key at the end otherwise (Python dict
insertion order). -/
def qupsert (qs : List (List Nat × List Message)) (k : List Nat)
    (v : List Message) : List (List Nat × List Message) :=
  match qs with
  | [] => [(k, v)]
  | (k', v') :: t => if k' = k then (k, v) :: t else (k', v') :: qupsert t k v

/-- The ordered key set of the queue store. -/
def qkeys (st : BrokerState) : List (List Nat) :=
  st.outgoing_queues.map Prod.fst

/-- Observable events of one connection handling: a reply sent to the
client, the connection being closed, a message enqueued, a message popped
from its queue. -/
inductive Ev where
  | reply (bs : List Nat)
  | close
  | enqueue (dest : List Nat) (m : Message)
  | pop (dest : List Nat) (m : Message)
deriving Repr, DecidableEq

/-- The bytes of the `OK` reply. -/
def OKb : List Nat := [79, 75]

/-- The bytes of the `FAIL` reply. -/
def FAILb : List Nat := [70, 65, 73, 76]

/-- The bytes of the `EMPTY` sentinel reply. -/
def EMPTYb : List Nat := [69, 77, 80, 84, 89]

/-- One connection handled by the Submit Listener, from
`Broker._msgreceiver` (lines 122-143): `conn.recv(MAX_MSG_SIZE)` truncates
the inbound data to the configured bound, the hex transport encoding is
undone and the frame parsed into a `Message`; on any decode failure the
broker replies `FAIL` and the state is unchanged; on success it replies
`OK`, closes the connection, and then pushes the message onto the queue
for its destination (creating the queue if absent: the source's
`if not self.outgoing_queues.get(...)` also replaces an existing empty
queue by a fresh one, which coincides with keeping it in this model).
`t` is the receipt time assigned to the message. -/
def msgreceiverHandle (cfg : Cfg) (st : BrokerState) (data : List Nat)
    (t : Nat) : BrokerState × List Ev :=
  let raw := data.take cfg.max_msg_size
  match decodeHex raw with
  | none => (st, [Ev.reply FAILb, Ev.close])
  | some frame =>
    match decodeMessage t frame with
    | none => (st, [Ev.reply FAILb, Ev.close])
    | some m =>
      let cur := (qlookup st.outgoing_queues m.dest_addr).getD []
      ({ st with
          outgoing_queues := qupsert st.outgoing_queues m.dest_addr (cur ++ [m]) },
       [Ev.reply OKb, Ev.close, Ev.enqueue m.dest_addr m])

/-- Modelled from the spec: `MsgQueue.pop` of `msg_lib` (not in the
available sources). Returns the earliest-arrived non-expired message and
the remaining queue; messages whose `created_at` plus the TTL has passed
are discarded (lazy expiry at pop time), and popping an empty or
fully-expired queue yields `none` (the source's `Queue.Empty`). -/
def popMsg (cfg : Cfg) (now : Nat) (q : List Message) :
    Option Message × List Message :=
  match q.filter (fun m => decide (now ≤ m.created_at + cfg.ttl)) with
  | [] => (none, [])
  | m :: rest => (some m, rest)

/-- One connection handled by the Fetch Listener, from
`Broker._fetchwatcher` (lines 165-181): the requested queue name is looked
up; a missing key (`KeyError`) or an empty pop answers with the `EMPTY`
sentinel; otherwise the message is popped (removed from the queue) first
and its `raw_msg` is then sent hex-encoded. `sendOk` models whether that
final transport send succeeds; when it fails the outer `except` abandons
the connection with the pop already performed. -/
def fetchHandle (cfg : Cfg) (st : BrokerState) (k : List Nat) (now : Nat)
    (sendOk : Bool) : BrokerState × List Ev :=
  match qlookup st.outgoing_queues k with
  | none => (st, [Ev.reply EMPTYb, Ev.close])
  | some q =>
    match popMsg cfg now q with
    | (none, q') =>
      ({ st with outgoing_queues := qupsert st.outgoing_queues k q' },
       [Ev.reply EMPTYb, Ev.close])
    | (some m, q') =>
      let st' := { st with outgoing_queues := qupsert st.outgoing_queues k q' }
      if sendOk then
        (st', [Ev.pop k m, Ev.reply (encodeHex m.raw_msg), Ev.close])
      else
        (st', [Ev.pop k m])

/-- One iteration of the Queue Parser thread, from `Broker._queueparser`
(lines 186-194): the body only sleeps — the TTL sweep is an unimplemented
stub in the source — so the state is unchanged. -/
def queueparserStep (st : BrokerState) : BrokerState := st

/-- The freshly constructed broker, from `Broker.__init__` (lines 49-68):
empty queue store, not running. -/
def initBroker : BrokerState := ⟨[], false⟩

/-- `Broker.start` (lines 70-84) restricted to its state effect: sets
`running` when not already running; the queue store is untouched. -/
def brokerStart (st : BrokerState) : BrokerState :=
  if st.running then st else { st with running := true }

/-- `Broker.stop` (lines 86-101) restricted to its state effect: clears
`running` and recreates the threads; the queue store is untouched. -/
def brokerStop (st : BrokerState) : BrokerState :=
  if st.running then { st with running := false } else st

/-- The destination address, if any, that a submission of `data` at time
`t` decodes to under configuration `cfg` (after the `recv` truncation). -/
def submitDest (cfg : Cfg) (data : List Nat) (t : Nat) : Option (List Nat) :=
  match decodeHex (data.take cfg.max_msg_size) with
  | none => none
  | some frame => (decodeMessage t frame).map Message.dest_addr

/-! ## Concrete example values used by witnesses and counterexamples -/

/-- A concrete configuration: maximum frame size 18 bytes, TTL 10. -/
def cfg0 : Cfg := ⟨18, 10⟩

/-- The destination address `A` (byte 65). -/
def addrA : List Nat := [65]

/-- The destination address `B` (byte 66). -/
def addrB : List Nat := [66]

/-- A concrete well-formed frame: version 4, type 6, sender `S`,
destination `A`, payload `[1, 2]` with declared length 2. -/
def exFrameA : List Nat := [4, 6, 1, 83, 1, 65, 2, 1, 2]

/-- A second well-formed frame to the same destination `A`, payload `[9]`. -/
def exFrameB : List Nat := [4, 6, 1, 83, 1, 65, 1, 9]

/-- A malformed frame: declared payload length 3, actual payload `[1, 2]`. -/
def badFrame : List Nat := [4, 6, 1, 83, 1, 65, 3, 1, 2]

/-- The message `exFrameA` decodes to when received at time `t`. -/
def exMsgA (t : Nat) : Message := ⟨6, [83], [65], [1, 2], t, exFrameA⟩

/-- The message `exFrameB` decodes to when received at time `t`. -/
def exMsgB (t : Nat) : Message := ⟨6, [83], [65], [9], t, exFrameB⟩

/-- The wire form of `exFrameA`: its hex transport encoding. -/
def exDataA : List Nat := encodeHex exFrameA

/-- The wire form of `exFrameB`. -/
def exDataB : List Nat := encodeHex exFrameB

/-- A broker state that is running with an empty queue store. -/
def st0 : BrokerState := ⟨[], true⟩

/-! ## Helper lemmas -/

theorem decodeHex_encodeHex (bs : List Nat) (h : ∀ b ∈ bs, b < 256) :
    decodeHex (encodeHex bs) = some bs := by
  induction bs with
  | nil => rfl
  | cons b t ih =>
    have hb : b < 256 := h b (by simp)
    have ht : ∀ x ∈ t, x < 256 := fun x hx => h x (by simp [hx])
    have hdiv : b / 16 < 16 := by omega
    have hmod : b % 16 < 16 := by omega
    have hcons : encodeHex (b :: t) = b / 16 :: b % 16 :: encodeHex t := rfl
    have harith : b / 16 * 16 + b % 16 = b := by omega
    rw [hcons]
    simp [decodeHex, hdiv, hmod, ih ht, harith]

theorem qlookup_qupsert_self (qs : List (List Nat × List Message))
    (k : List Nat) (v : List Message) : qlookup (qupsert qs k v) k = some v := by
  induction qs with
  | nil => simp [qupsert, qlookup]
  | cons p t ih =>
    obtain ⟨k1, v1⟩ := p
    by_cases hk : k1 = k
    · simp [qupsert, qlookup, hk]
    · simp [qupsert, qlookup, hk, ih]

theorem qlookup_qupsert_ne (qs : List (List Nat × List Message))
    (k k' : List Nat) (v : List Message) (h : k' ≠ k) :
    qlookup (qupsert qs k v) k' = qlookup qs k' := by
  induction qs with
  | nil =>
    simp only [qupsert, qlookup]
    rw [if_neg (fun hh => h hh.symm)]
  | cons p t ih =>
    obtain ⟨k1, v1⟩ := p
    simp only [qupsert]
    by_cases hk : k1 = k
    · subst hk
      simp only [if_pos rfl, qlookup]
      rw [if_neg (fun hh => h hh.symm), if_neg (fun hh => h hh.symm)]
    · simp only [if_neg hk, qlookup, ih]

theorem qupsert_eq_of_qlookup (qs : List (List Nat × List Message))
    (k : List Nat) (v : List Message) (h : qlookup qs k = some v) :
    qupsert qs k v = qs := by
  induction qs with
  | nil => simp [qlookup] at h
  | cons p t ih =>
    obtain ⟨k1, v1⟩ := p
    by_cases hk : k1 = k
    · simp only [qlookup, if_pos hk] at h
      simp only [qupsert, if_pos hk]
      simp_all
    · simp only [qlookup, if_neg hk] at h
      simp [qupsert, if_neg hk, ih h]

theorem map_fst_qupsert (qs : List (List Nat × List Message))
    (k : List Nat) (v : List Message) :
    (qupsert qs k v).map Prod.fst =
      if (qlookup qs k).isSome then qs.map Prod.fst
      else qs.map Prod.fst ++ [k] := by
  induction qs with
  | nil => simp [qupsert, qlookup]
  | cons p t ih =>
    obtain ⟨k1, v1⟩ := p
    by_cases hk : k1 = k
    · simp [qupsert, qlookup, hk]
    · simp only [qupsert, if_neg hk, qlookup, List.map_cons, ih]
      by_cases hs : (qlookup t k).isSome <;> simp [hs]

theorem decodeMessage_created_at_raw (t : Nat) (f : List Nat) (m : Message)
    (h : decodeMessage t f = some m) : m.created_at = t ∧ m.raw_msg = f := by
  unfold decodeMessage at h
  repeat' split at h
  all_goals simp_all
  all_goals exact ⟨(congrArg Message.created_at h.symm).symm ▸ rfl,
    (congrArg Message.raw_msg h.symm).symm ▸ rfl⟩

theorem msgreceiverHandle_ok (cfg : Cfg) (st : BrokerState) (d : List Nat)
    (t : Nat) (f : List Nat) (m : Message)
    (h1 : decodeHex (d.take cfg.max_msg_size) = some f)
    (h2 : decodeMessage t f = some m) :
    msgreceiverHandle cfg st d t =
      ({ st with
          outgoing_queues := qupsert st.outgoing_queues m.dest_addr
            ((qlookup st.outgoing_queues m.dest_addr).getD [] ++ [m]) },
       [Ev.reply OKb, Ev.close, Ev.enqueue m.dest_addr m]) := by
  simp [msgreceiverHandle, h1, h2]

theorem msgreceiverHandle_fail (cfg : Cfg) (st : BrokerState) (d : List Nat)
    (t : Nat)
    (h : decodeHex (d.take cfg.max_msg_size) = none ∨
      ∃ f, decodeHex (d.take cfg.max_msg_size) = some f ∧
        decodeMessage t f = none) :
    msgreceiverHandle cfg st d t = (st, [Ev.reply FAILb, Ev.close]) := by
  rcases h with h | ⟨f, h1, h2⟩
  · simp [msgreceiverHandle, h]
  · simp [msgreceiverHandle, h1, h2]

theorem popMsg_cons_fresh (cfg : Cfg) (now : Nat) (m : Message)
    (rest : List Message) (hm : now ≤ m.created_at + cfg.ttl)
    (hrest : ∀ x ∈ rest, now ≤ x.created_at + cfg.ttl) :
    popMsg cfg now (m :: rest) = (some m, rest) := by
  have : rest.filter (fun x => decide (now ≤ x.created_at + cfg.ttl)) = rest :=
    List.filter_eq_self.mpr (fun x hx => by simpa using hrest x hx)
  simp [popMsg, hm, this]

theorem popMsg_all_expired (cfg : Cfg) (now : Nat) (q : List Message)
    (h : ∀ x ∈ q, x.created_at + cfg.ttl < now) :
    popMsg cfg now q = (none, []) := by
  have : q.filter (fun x => decide (now ≤ x.created_at + cfg.ttl)) = [] := by
    rw [List.filter_eq_nil_iff]
    intro x hx
    simpa using Nat.not_le.mpr (h x hx)
  simp [popMsg, this]

theorem popMsg_some_fresh (cfg : Cfg) (now : Nat) (q : List Message)
    (m : Message) (q' : List Message) (h : popMsg cfg now q = (some m, q')) :
    now ≤ m.created_at + cfg.ttl := by
  unfold popMsg at h
  rcases hf : q.filter (fun x => decide (now ≤ x.created_at + cfg.ttl)) with
    _ | ⟨a, l⟩
  · rw [hf] at h; simp at h
  · rw [hf] at h
    simp only [Prod.mk.injEq, Option.some.injEq] at h
    have ha : a ∈ q.filter (fun x => decide (now ≤ x.created_at + cfg.ttl)) := by
      rw [hf]; exact List.mem_cons_self a l
    have := List.of_mem_filter ha
    simpa [h.1] using this

theorem fetchHandle_pop (cfg : Cfg) (st : BrokerState) (k : List Nat)
    (now : Nat) (b : Bool) (q : List Message) (m : Message) (q' : List Message)
    (hq : qlookup st.outgoing_queues k = some q)
    (hp : popMsg cfg now q = (some m, q')) :
    fetchHandle cfg st k now b =
      ({ st with outgoing_queues := qupsert st.outgoing_queues k q' },
       if b then [Ev.pop k m, Ev.reply (encodeHex m.raw_msg), Ev.close]
       else [Ev.pop k m]) := by
  cases b <;> simp [fetchHandle, hq, hp]

theorem fetchHandle_no_msg (cfg : Cfg) (st : BrokerState) (k : List Nat)
    (now : Nat) (b : Bool) (q : List Message) (q' : List Message)
    (hq : qlookup st.outgoing_queues k = some q)
    (hp : popMsg cfg now q = (none, q')) :
    fetchHandle cfg st k now b =
      ({ st with outgoing_queues := qupsert st.outgoing_queues k q' },
       [Ev.reply EMPTYb, Ev.close]) := by
  simp [fetchHandle, hq, hp]

theorem fetchHandle_no_queue (cfg : Cfg) (st : BrokerState) (k : List Nat)
    (now : Nat) (b : Bool) (hq : qlookup st.outgoing_queues k = none) :
    fetchHandle cfg st k now b = (st, [Ev.reply EMPTYb, Ev.close]) := by
  simp [fetchHandle, hq]

/-! ## Claims -/

/-- C1: a message whose frame is successfully decoded by the Submit
Listener and later fetched for the same destination before its TTL
elapses comes back byte-for-byte: the fetch replies with the stored
`raw_msg` of the popped message re-encoded in hex, and undoing the hex
transport encoding recovers exactly the frame originally submitted. -/
theorem c1_submit_fetch_roundtrip (cfg : Cfg) (st : BrokerState)
    (t now : Nat) (frame : List Nat) (m : Message)
    (hbytes : ∀ b ∈ frame, b < 256)
    (hsize : (encodeHex frame).length ≤ cfg.max_msg_size)
    (hdec : decodeMessage t frame = some m)
    (hempty : (qlookup st.outgoing_queues m.dest_addr).getD [] = [])
    (hfresh : now ≤ t + cfg.ttl) :
    ∃ st1 st2,
      msgreceiverHandle cfg st (encodeHex frame) t =
        (st1, [Ev.reply OKb, Ev.close, Ev.enqueue m.dest_addr m]) ∧
      fetchHandle cfg st1 m.dest_addr now true =
        (st2, [Ev.pop m.dest_addr m, Ev.reply (encodeHex frame), Ev.close]) ∧
      decodeHex (encodeHex frame) = some frame := by
  obtain ⟨hct, hraw⟩ := decodeMessage_created_at_raw t frame m hdec
  have hhex : decodeHex (encodeHex frame) = some frame :=
    decodeHex_encodeHex frame hbytes
  have h1 : decodeHex ((encodeHex frame).take cfg.max_msg_size) = some frame := by
    rw [List.take_of_length_le hsize]; exact hhex
  have hsub := msgreceiverHandle_ok cfg st (encodeHex frame) t frame m h1 hdec
  have hlook :
      qlookup (qupsert st.outgoing_queues m.dest_addr
        ((qlookup st.outgoing_queues m.dest_addr).getD [] ++ [m]))
        m.dest_addr = some [m] := by
    rw [qlookup_qupsert_self, hempty]
    rfl
  have hpop : popMsg cfg now [m] = (some m, []) :=
    popMsg_cons_fresh cfg now m [] (by rw [hct]; exact hfresh) (by simp)
  have hfetch := fetchHandle_pop cfg
    ({ st with
        outgoing_queues := qupsert st.outgoing_queues m.dest_addr
          ((qlookup st.outgoing_queues m.dest_addr).getD [] ++ [m]) })
    m.dest_addr now true [m] m [] hlook hpop
  exact ⟨_, _, hsub, by simpa [hraw] using hfetch, hhex⟩

/-- Witness for C1 at a concrete frame, configuration and times. -/
theorem c1_witness :
    (∀ b ∈ exFrameA, b < 256) ∧
    (encodeHex exFrameA).length ≤ cfg0.max_msg_size ∧
    decodeMessage 0 exFrameA = some (exMsgA 0) ∧
    (qlookup st0.outgoing_queues (exMsgA 0).dest_addr).getD [] = [] ∧
    3 ≤ 0 + cfg0.ttl ∧
    ∃ st1 st2,
      msgreceiverHandle cfg0 st0 (encodeHex exFrameA) 0 =
        (st1, [Ev.reply OKb, Ev.close, Ev.enqueue (exMsgA 0).dest_addr (exMsgA 0)]) ∧
      fetchHandle cfg0 st1 (exMsgA 0).dest_addr 3 true =
        (st2, [Ev.pop (exMsgA 0).dest_addr (exMsgA 0),
          Ev.reply (encodeHex exFrameA), Ev.close]) ∧
      decodeHex (encodeHex exFrameA) = some exFrameA :=
  ⟨by decide, by decide, by decide, by decide, by decide,
    c1_submit_fetch_roundtrip cfg0 st0 0 3 exFrameA (exMsgA 0)
      (by decide) (by decide) (by decide) (by decide) (by decide)⟩

/-- C2: per-destination FIFO — submitting A then B to the same
destination, two subsequent fetches return A then B, each pop removes the
returned message, and a third fetch finds the queue empty (no message is
delivered twice). -/
theorem c2_fifo_per_destination (cfg : Cfg) (st : BrokerState)
    (t1 t2 now1 now2 now3 : Nat) (fA fB : List Nat) (mA mB : Message)
    (hA : decodeMessage t1 fA = some mA)
    (hB : decodeMessage t2 fB = some mB)
    (hsame : mB.dest_addr = mA.dest_addr)
    (hbytesA : ∀ b ∈ fA, b < 256) (hbytesB : ∀ b ∈ fB, b < 256)
    (hsizeA : (encodeHex fA).length ≤ cfg.max_msg_size)
    (hsizeB : (encodeHex fB).length ≤ cfg.max_msg_size)
    (hempty : (qlookup st.outgoing_queues mA.dest_addr).getD [] = [])
    (hf1A : now1 ≤ t1 + cfg.ttl) (hf1B : now1 ≤ t2 + cfg.ttl)
    (hf2B : now2 ≤ t2 + cfg.ttl) :
    ∃ st1 st2 st3 st4,
      msgreceiverHandle cfg st (encodeHex fA) t1 =
        (st1, [Ev.reply OKb, Ev.close, Ev.enqueue mA.dest_addr mA]) ∧
      msgreceiverHandle cfg st1 (encodeHex fB) t2 =
        (st2, [Ev.reply OKb, Ev.close, Ev.enqueue mA.dest_addr mB]) ∧
      fetchHandle cfg st2 mA.dest_addr now1 true =
        (st3, [Ev.pop mA.dest_addr mA, Ev.reply (encodeHex mA.raw_msg),
          Ev.close]) ∧
      fetchHandle cfg st3 mA.dest_addr now2 true =
        (st4, [Ev.pop mA.dest_addr mB, Ev.reply (encodeHex mB.raw_msg),
          Ev.close]) ∧
      fetchHandle cfg st4 mA.dest_addr now3 true =
        (st4, [Ev.reply EMPTYb, Ev.close]) := by
  obtain ⟨hctA, _⟩ := decodeMessage_created_at_raw t1 fA mA hA
  obtain ⟨hctB, _⟩ := decodeMessage_created_at_raw t2 fB mB hB
  have h1 : decodeHex ((encodeHex fA).take cfg.max_msg_size) = some fA := by
    rw [List.take_of_length_le hsizeA]; exact decodeHex_encodeHex fA hbytesA
  have h2 : decodeHex ((encodeHex fB).take cfg.max_msg_size) = some fB := by
    rw [List.take_of_length_le hsizeB]; exact decodeHex_encodeHex fB hbytesB
  have hsubA := msgreceiverHandle_ok cfg st (encodeHex fA) t1 fA mA h1 hA
  set qs1 := qupsert st.outgoing_queues mA.dest_addr
    ((qlookup st.outgoing_queues mA.dest_addr).getD [] ++ [mA]) with hqs1
  have hlook1 : qlookup qs1 mA.dest_addr = some [mA] := by
    rw [hqs1, qlookup_qupsert_self, hempty]
    rfl
  have hsubB := msgreceiverHandle_ok cfg
    ({ st with outgoing_queues := qs1 }) (encodeHex fB) t2 fB mB h2 hB
  rw [hsame] at hsubB
  simp only [hlook1, Option.getD_some] at hsubB
  set qs2 := qupsert qs1 mA.dest_addr ([mA] ++ [mB]) with hqs2
  have hlook2 : qlookup qs2 mA.dest_addr = some [mA, mB] := by
    rw [hqs2, qlookup_qupsert_self]
    rfl
  have hpop1 : popMsg cfg now1 [mA, mB] = (some mA, [mB]) :=
    popMsg_cons_fresh cfg now1 mA [mB] (by rw [hctA]; exact hf1A)
      (by intro x hx; simp at hx; rw [hx, hctB]; exact hf1B)
  have hfetch1 := fetchHandle_pop cfg ({ st with outgoing_queues := qs2 })
    mA.dest_addr now1 true [mA, mB] mA [mB] hlook2 hpop1
  set qs3 := qupsert qs2 mA.dest_addr [mB] with hqs3
  have hlook3 : qlookup qs3 mA.dest_addr = some [mB] := by
    rw [hqs3, qlookup_qupsert_self]
  have hpop2 : popMsg cfg now2 [mB] = (some mB, []) :=
    popMsg_cons_fresh cfg now2 mB [] (by rw [hctB]; exact hf2B) (by simp)
  have hfetch2 := fetchHandle_pop cfg ({ st with outgoing_queues := qs3 })
    mA.dest_addr now2 true [mB] mB [] hlook3 hpop2
  set qs4 := qupsert qs3 mA.dest_addr [] with hqs4
  have hlook4 : qlookup qs4 mA.dest_addr = some [] := by
    rw [hqs4, qlookup_qupsert_self]
  have hpop3 : popMsg cfg now3 [] = (none, []) := by simp [popMsg]
  have hfetch3 := fetchHandle_no_msg cfg ({ st with outgoing_queues := qs4 })
    mA.dest_addr now3 true [] [] hlook4 hpop3
  rw [qupsert_eq_of_qlookup qs4 mA.dest_addr [] hlook4] at hfetch3
  exact ⟨_, _, _, _, hsubA, hsubB, by simpa using hfetch1,
    by simpa using hfetch2, hfetch3⟩

/-- Witness for C2 at two concrete frames to destination `A`. -/
theorem c2_witness :
    decodeMessage 0 exFrameA = some (exMsgA 0) ∧
    decodeMessage 1 exFrameB = some (exMsgB 1) ∧
    (exMsgB 1).dest_addr = (exMsgA 0).dest_addr ∧
    ∃ st1 st2 st3 st4,
      msgreceiverHandle cfg0 st0 (encodeHex exFrameA) 0 =
        (st1, [Ev.reply OKb, Ev.close,
          Ev.enqueue (exMsgA 0).dest_addr (exMsgA 0)]) ∧
      msgreceiverHandle cfg0 st1 (encodeHex exFrameB) 1 =
        (st2, [Ev.reply OKb, Ev.close,
          Ev.enqueue (exMsgA 0).dest_addr (exMsgB 1)]) ∧
      fetchHandle cfg0 st2 (exMsgA 0).dest_addr 2 true =
        (st3, [Ev.pop (exMsgA 0).dest_addr (exMsgA 0),
          Ev.reply (encodeHex (exMsgA 0).raw_msg), Ev.close]) ∧
      fetchHandle cfg0 st3 (exMsgA 0).dest_addr 3 true =
        (st4, [Ev.pop (exMsgA 0).dest_addr (exMsgB 1),
          Ev.reply (encodeHex (exMsgB 1).raw_msg), Ev.close]) ∧
      fetchHandle cfg0 st4 (exMsgA 0).dest_addr 4 true =
        (st4, [Ev.reply EMPTYb, Ev.close]) :=
  ⟨by decide, by decide, by decide,
    c2_fifo_per_destination cfg0 st0 0 1 2 3 4 exFrameA exFrameB
      (exMsgA 0) (exMsgB 1) (by decide) (by decide) (by decide) (by decide)
      (by decide) (by decide) (by decide) (by decide) (by decide) (by decide)
      (by decide)⟩

/-- C3: a fetch for a destination with no queue (never-seen address) or an
empty queue is answered immediately with the `EMPTY` sentinel and leaves
the state unchanged; `fetchHandle` is a total function of the current
state, so the answer never waits for a future message. -/
theorem c3_fetch_empty_sentinel (cfg : Cfg) (st : BrokerState) (k : List Nat)
    (now : Nat) (b : Bool) :
    (qlookup st.outgoing_queues k = none →
      fetchHandle cfg st k now b = (st, [Ev.reply EMPTYb, Ev.close])) ∧
    (qlookup st.outgoing_queues k = some [] →
      fetchHandle cfg st k now b = (st, [Ev.reply EMPTYb, Ev.close])) := by
  constructor
  · intro h
    exact fetchHandle_no_queue cfg st k now b h
  · intro h
    have hpop : popMsg cfg now ([] : List Message) = (none, []) := by
      simp [popMsg]
    have := fetchHandle_no_msg cfg st k now b [] [] h hpop
    rwa [qupsert_eq_of_qlookup st.outgoing_queues k [] h] at this

/-- Witness for C3: a never-seen address on the empty store, and an
address whose queue exists but is empty. -/
theorem c3_witness :
    fetchHandle cfg0 st0 addrA 5 true = (st0, [Ev.reply EMPTYb, Ev.close]) ∧
    fetchHandle cfg0 ⟨[(addrA, [])], true⟩ addrA 5 true =
      (⟨[(addrA, [])], true⟩, [Ev.reply EMPTYb, Ev.close]) :=
  ⟨(c3_fetch_empty_sentinel cfg0 st0 addrA 5 true).1 (by decide),
   (c3_fetch_empty_sentinel cfg0 ⟨[(addrA, [])], true⟩ addrA 5 true).2
     (by decide)⟩

/-- C4: a submitted frame that fails to decode — the transport encoding
cannot be undone, or the frame fails to parse (e.g. a payload length field
disagreeing with the actual byte count) — is answered `FAIL` and the
broker state, hence every destination queue and its message count, is left
unchanged. -/
theorem c4_decode_failure_discards (cfg : Cfg) (st : BrokerState)
    (d : List Nat) (t : Nat) :
    (decodeHex (d.take cfg.max_msg_size) = none →
      msgreceiverHandle cfg st d t = (st, [Ev.reply FAILb, Ev.close])) ∧
    (∀ f, decodeHex (d.take cfg.max_msg_size) = some f →
      decodeMessage t f = none →
      msgreceiverHandle cfg st d t = (st, [Ev.reply FAILb, Ev.close])) := by
  constructor
  · intro h
    exact msgreceiverHandle_fail cfg st d t (Or.inl h)
  · intro f h1 h2
    exact msgreceiverHandle_fail cfg st d t (Or.inr ⟨f, h1, h2⟩)

/-- Witness for C4: `badFrame` declares payload length 3 but carries 2
bytes; its submission yields `FAIL` and the state is unchanged. -/
theorem c4_witness :
    decodeHex ((encodeHex badFrame).take cfg0.max_msg_size) = some badFrame ∧
    decodeMessage 0 badFrame = none ∧
    msgreceiverHandle cfg0 st0 (encodeHex badFrame) 0 =
      (st0, [Ev.reply FAILb, Ev.close]) :=
  ⟨by decide, by decide,
    (c4_decode_failure_discards cfg0 st0 (encodeHex badFrame) 0).2 badFrame
      (by decide) (by decide)⟩

/-- C5: a fetch never returns a message whose age exceeds its TTL — any
message a pop returns satisfies `created_at + ttl ≥ now`, and fetching a
queue all of whose messages have expired removes them (lazy expiry at pop
time, the in-source sweeper being a stub) and answers `EMPTY`. -/
theorem c5_no_expired_delivery (cfg : Cfg) (st : BrokerState) (k : List Nat)
    (now : Nat) (b : Bool) (q : List Message) (m : Message)
    (q' : List Message) :
    (popMsg cfg now q = (some m, q') → ¬ m.created_at + cfg.ttl < now) ∧
    (qlookup st.outgoing_queues k = some q →
      (∀ x ∈ q, x.created_at + cfg.ttl < now) →
      fetchHandle cfg st k now b =
        ({ st with outgoing_queues := qupsert st.outgoing_queues k [] },
         [Ev.reply EMPTYb, Ev.close])) := by
  constructor
  · intro h
    exact Nat.not_lt.mpr (popMsg_some_fresh cfg now q m q' h)
  · intro hq hall
    exact fetchHandle_no_msg cfg st k now b q [] hq
      (popMsg_all_expired cfg now q hall)

/-- Witness for C5: a message received at time 0 with TTL 10 is popped at
time 3 (not expired) but at time 20 the fetch answers `EMPTY`. -/
theorem c5_witness :
    popMsg cfg0 3 [exMsgA 0] = (some (exMsgA 0), []) ∧
    ¬ (exMsgA 0).created_at + cfg0.ttl < 3 ∧
    (∀ x ∈ [exMsgA 0], x.created_at + cfg0.ttl < 20) ∧
    fetchHandle cfg0 ⟨[(addrA, [exMsgA 0])], true⟩ addrA 20 true =
      (⟨qupsert [(addrA, [exMsgA 0])] addrA [], true⟩,
       [Ev.reply EMPTYb, Ev.close]) :=
  ⟨by decide,
   (c5_no_expired_delivery cfg0 ⟨[(addrA, [exMsgA 0])], true⟩ addrA 3 true
     [exMsgA 0] (exMsgA 0) []).1 (by decide),
   by decide,
   (c5_no_expired_delivery cfg0 ⟨[(addrA, [exMsgA 0])], true⟩ addrA 20 true
     [exMsgA 0] (exMsgA 0) []).2 (by decide) (by decide)⟩

/-- C6 counterexample: on a successful decode the Submit Listener's event
order is `OK` reply, close, and only then the enqueue — there are no
positions `i < j` with the enqueue at `i` and the `OK` reply at `j`, so
the message is not yet enqueued when the sender receives `OK`. -/
theorem c6_counterexample :
    (msgreceiverHandle cfg0 st0 exDataA 0).2 =
      [Ev.reply OKb, Ev.close, Ev.enqueue addrA (exMsgA 0)] ∧
    Ev.enqueue addrA (exMsgA 0) ∈ (msgreceiverHandle cfg0 st0 exDataA 0).2 ∧
    Ev.reply OKb ∈ (msgreceiverHandle cfg0 st0 exDataA 0).2 ∧
    ¬ ∃ i j : Fin 3, (i : Nat) < (j : Nat) ∧
      [Ev.reply OKb, Ev.close, Ev.enqueue addrA (exMsgA 0)].get i =
        Ev.enqueue addrA (exMsgA 0) ∧
      [Ev.reply OKb, Ev.close, Ev.enqueue addrA (exMsgA 0)].get j =
        Ev.reply OKb := by
  decide

/-- C6 amended: on every successful decode the Submit Listener replies
`OK` and closes the connection, and then pushes the Message onto the Queue
Store entry for its `dest_addr` (creating the queue if absent) within the
same connection handling; once the handler completes, the message is
enqueued, but the reply precedes the push. -/
theorem c6_ok_then_enqueue (cfg : Cfg) (st : BrokerState) (d : List Nat)
    (t : Nat) (f : List Nat) (m : Message)
    (h1 : decodeHex (d.take cfg.max_msg_size) = some f)
    (h2 : decodeMessage t f = some m) :
    (msgreceiverHandle cfg st d t).2 =
      [Ev.reply OKb, Ev.close, Ev.enqueue m.dest_addr m] ∧
    qlookup (msgreceiverHandle cfg st d t).1.outgoing_queues m.dest_addr =
      some ((qlookup st.outgoing_queues m.dest_addr).getD [] ++ [m]) := by
  rw [msgreceiverHandle_ok cfg st d t f m h1 h2]
  exact ⟨rfl, qlookup_qupsert_self _ _ _⟩

/-- Witness for C6 amended at the concrete frame `exFrameA`. -/
theorem c6_witness :
    decodeHex (exDataA.take cfg0.max_msg_size) = some exFrameA ∧
    decodeMessage 0 exFrameA = some (exMsgA 0) ∧
    (msgreceiverHandle cfg0 st0 exDataA 0).2 =
      [Ev.reply OKb, Ev.close,
        Ev.enqueue (exMsgA 0).dest_addr (exMsgA 0)] ∧
    qlookup (msgreceiverHandle cfg0 st0 exDataA 0).1.outgoing_queues
        (exMsgA 0).dest_addr =
      some ((qlookup st0.outgoing_queues (exMsgA 0).dest_addr).getD []
        ++ [exMsgA 0]) :=
  ⟨by decide, by decide,
    (c6_ok_then_enqueue cfg0 st0 exDataA 0 exFrameA (exMsgA 0)
      (by decide) (by decide)).1,
    (c6_ok_then_enqueue cfg0 st0 exDataA 0 exFrameA (exMsgA 0)
      (by decide) (by decide)).2⟩

/-- C7 counterexample: a message submitted before `stop()` is still in the
Queue Store after `stop()` followed by `start()` — the store is not
cleared, so the claim that no message survives the stop is false. -/
theorem c7_counterexample :
    (msgreceiverHandle cfg0 st0 exDataA 0).2 =
      [Ev.reply OKb, Ev.close, Ev.enqueue addrA (exMsgA 0)] ∧
    qlookup (brokerStart (brokerStop
        (msgreceiverHandle cfg0 st0 exDataA 0).1)).outgoing_queues addrA =
      some [exMsgA 0] ∧
    (brokerStart (brokerStop
        (msgreceiverHandle cfg0 st0 exDataA 0).1)).running = true := by
  decide

/-- C7 amended: `stop()` leaves the Queue Store and all of its contents
intact — only the `running` flag changes and the threads are recreated —
and a subsequent `start()` resumes with the same store, so every message
submitted before `stop()` is still present; contents are lost only when
broker execution terminates and the object is discarded. -/
theorem c7_store_survives_stop (st : BrokerState) :
    (brokerStop st).outgoing_queues = st.outgoing_queues ∧
    (brokerStart (brokerStop st)).outgoing_queues = st.outgoing_queues ∧
    (brokerStart (brokerStop st)).running = true := by
  unfold brokerStart brokerStop
  by_cases h : st.running <;> simp [h]

/-- C8 counterexample: inbound data strictly exceeding the configured
maximum frame size is not rejected — it is truncated, its prefix is
parsed, and here the truncated prefix even decodes to a message that is
accepted with `OK` and enqueued. -/
theorem c8_counterexample :
    cfg0.max_msg_size < (exDataA ++ [0, 0]).length ∧
    (msgreceiverHandle cfg0 st0 (exDataA ++ [0, 0]) 0).2 =
      [Ev.reply OKb, Ev.close, Ev.enqueue addrA (exMsgA 0)] ∧
    qlookup (msgreceiverHandle cfg0 st0
        (exDataA ++ [0, 0]) 0).1.outgoing_queues addrA = some [exMsgA 0] := by
  decide

/-- C8 amended: `conn.recv(MAX_MSG_SIZE)` truncates inbound data to the
configured maximum frame size before any decoding, so the Submit
Listener's behaviour on any data coincides with its behaviour on the first
`max_msg_size` bytes: bytes beyond the bound never influence the decoded
message or the queues, but the truncated prefix is still parsed (and may
fail with `FAIL` or even be accepted). -/
theorem c8_truncation (cfg : Cfg) (st : BrokerState) (d : List Nat)
    (t : Nat) :
    msgreceiverHandle cfg st d t =
      msgreceiverHandle cfg st (d.take cfg.max_msg_size) t := by
  unfold msgreceiverHandle
  simp [List.take_take]

/-- C9: the key set of the Queue Store grows monotonically — a submission
leaves the keys unchanged unless it decodes to a message for a
previously-unseen destination, in which case exactly that key is appended;
a fetch never adds or removes a key; the queue-parser step changes
nothing. No operation ever deletes a queue entry. -/
theorem c9_key_monotonicity (cfg : Cfg) (st : BrokerState) (d : List Nat)
    (t : Nat) (k : List Nat) (now : Nat) (b : Bool) :
    qkeys (msgreceiverHandle cfg st d t).1 =
      (match submitDest cfg d t with
       | none => qkeys st
       | some dst =>
         if (qlookup st.outgoing_queues dst).isSome then qkeys st
         else qkeys st ++ [dst]) ∧
    qkeys (fetchHandle cfg st k now b).1 = qkeys st ∧
    queueparserStep st = st := by
  refine ⟨?_, ?_, rfl⟩
  · rcases hdx : decodeHex (d.take cfg.max_msg_size) with _ | f
    · simp [msgreceiverHandle, submitDest, hdx, qkeys]
    · rcases hdm : decodeMessage t f with _ | m
      · simp [msgreceiverHandle, submitDest, hdx, hdm, qkeys]
      · simp [msgreceiverHandle, submitDest, hdx, hdm, qkeys, map_fst_qupsert]
  · rcases hq : qlookup st.outgoing_queues k with _ | q
    · simp [fetchHandle, hq]
    · have hs : (qlookup st.outgoing_queues k).isSome = true := by
        rw [hq]; rfl
      rcases hp : popMsg cfg now q with ⟨om, q'⟩
      rcases om with _ | m
      · simp [fetchHandle, hq, hp, qkeys, map_fst_qupsert, hs]
      · cases b <;>
          simp [fetchHandle, hq, hp, qkeys, map_fst_qupsert, hs]

/-- C10: the Fetch Listener removes the popped message from its queue
before the reply is transmitted: the resulting state is the same whether
or not sending the bytes succeeds, the queue now holds the remainder, the
pop event precedes the reply event, and when the send fails no reply is
ever transmitted while the removal stands. -/
theorem c10_pop_before_reply (cfg : Cfg) (st : BrokerState) (k : List Nat)
    (now : Nat) (q : List Message) (m : Message) (q' : List Message)
    (hq : qlookup st.outgoing_queues k = some q)
    (hp : popMsg cfg now q = (some m, q')) :
    (fetchHandle cfg st k now false).1 = (fetchHandle cfg st k now true).1 ∧
    qlookup (fetchHandle cfg st k now false).1.outgoing_queues k = some q' ∧
    (fetchHandle cfg st k now false).2 = [Ev.pop k m] ∧
    (fetchHandle cfg st k now true).2 =
      [Ev.pop k m, Ev.reply (encodeHex m.raw_msg), Ev.close] := by
  rw [fetchHandle_pop cfg st k now false q m q' hq hp,
    fetchHandle_pop cfg st k now true q m q' hq hp]
  exact ⟨rfl, qlookup_qupsert_self _ _ _, rfl, rfl⟩

/-- Witness for C10: the concrete one-message queue for destination `A`;
the message is removed even when the final send fails. -/
theorem c10_witness :
    qlookup (⟨[(addrA, [exMsgA 0])], true⟩ : BrokerState).outgoing_queues
      addrA = some [exMsgA 0] ∧
    popMsg cfg0 3 [exMsgA 0] = (some (exMsgA 0), []) ∧
    ((fetchHandle cfg0 ⟨[(addrA, [exMsgA 0])], true⟩ addrA 3 false).1 =
      (fetchHandle cfg0 ⟨[(addrA, [exMsgA 0])], true⟩ addrA 3 true).1 ∧
    qlookup (fetchHandle cfg0 ⟨[(addrA, [exMsgA 0])], true⟩ addrA 3
        false).1.outgoing_queues addrA = some [] ∧
    (fetchHandle cfg0 ⟨[(addrA, [exMsgA 0])], true⟩ addrA 3 false).2 =
      [Ev.pop addrA (exMsgA 0)] ∧
    (fetchHandle cfg0 ⟨[(addrA, [exMsgA 0])], true⟩ addrA 3 true).2 =
      [Ev.pop addrA (exMsgA 0), Ev.reply (encodeHex (exMsgA 0).raw_msg),
        Ev.close]) :=
  ⟨by decide, by decide,
    c10_pop_before_reply cfg0 ⟨[(addrA, [exMsgA 0])], true⟩ addrA 3
      [exMsgA 0] (exMsgA 0) [] (by decide) (by decide)⟩

end LocoSim
